import Mathlib

/-!
Shallow embedding of `src/tasks.py` (fresh-news-robot) and verification of
the spec's claims about it.  The embedding models:

* `NewInformation` with its two pure queries (`count_of_phrase_occurrences`,
  `has_money`);
* `NewsParameters` construction from the work-item payload;
* the cutoff-date computation, timestamp parsing, per-page item processing,
  next-page click retry and pagination loop of `LATimesLogic.get_news`.

External collaborators (the Selenium driver, the wall clock, the epoch/
calendar conversion `datetime.fromtimestamp`) are modelled as explicit
parameters: a browser state carrying the result pages, a fixed `now`, a
function `fromMillis`, and an interception oracle for clicks.
-/

namespace FreshNews

/-- Model of Python `datetime.datetime` values: a calendar timestamp with
year, month, day, hour, minute, second and microsecond fields.  Python
compares `datetime` values lexicographically on these fields. -/
structure PyDateTime where
  year : Int
  month : Int
  day : Int
  hour : Int
  minute : Int
  second : Int
  micro : Int
deriving DecidableEq

/-- Lexicographic strict comparison of `PyDateTime`s, as Python's `<` on
`datetime` objects. -/
def PyDateTime.ltb (a b : PyDateTime) : Bool :=
  decide (a.year < b.year) || (decide (a.year = b.year) &&
    (decide (a.month < b.month) || (decide (a.month = b.month) &&
      (decide (a.day < b.day) || (decide (a.day = b.day) &&
        (decide (a.hour < b.hour) || (decide (a.hour = b.hour) &&
          (decide (a.minute < b.minute) || (decide (a.minute = b.minute) &&
            (decide (a.second < b.second) || (decide (a.second = b.second) &&
              decide (a.micro < b.micro))))))))))))

/-- Leap-year test of the proleptic Gregorian calendar (Python
`calendar.isleap`, used by `relativedelta` for day clamping). -/
def isLeap (y : Int) : Bool :=
  decide (y % 4 = 0) && (decide (y % 100 ≠ 0) || decide (y % 400 = 0))

/-- Number of days of month `m` of year `y`. -/
def daysInMonth (y m : Int) : Int :=
  if m = 2 then (if isLeap y then 29 else 28)
  else if m = 4 ∨ m = 6 ∨ m = 9 ∨ m = 11 then 30
  else 31

/-- Model of `dt - relativedelta(months=k)`: move `k` months back, the
month normalised into 1..12 by borrowing years (floor arithmetic on the
absolute month index) and the day clamped to the length of the target
month.  The time-of-day fields are untouched. -/
def subMonths (dt : PyDateTime) (k : Nat) : PyDateTime :=
  let t : Int := dt.year * 12 + (dt.month - 1) - (k : Int)
  let y : Int := t / 12
  let m : Int := t % 12 + 1
  { dt with year := y, month := m, day := min dt.day (daysInMonth y m) }

/-- Cutoff date of `get_news` (src/tasks.py line 165):
`(datetime.now() - relativedelta(months=months - 1 if months else 0)).replace(day=1)`. -/
def maxDateToSearch (months : Nat) (now : PyDateTime) : PyDateTime :=
  { subMonths now (if months ≠ 0 then months - 1 else 0) with day := 1 }

/-- ASCII decimal digits (scope of this embedding for both `\d` of the
money regex and the digits accepted by `int`). -/
def isDig (c : Char) : Bool :=
  decide (c ∈ (['0', '1', '2', '3', '4', '5', '6', '7', '8', '9'] : List Char))

/-- Numeric value of a nonempty all-digit character list, `none` otherwise. -/
def digitsVal (cs : List Char) : Option Nat :=
  if cs ≠ [] ∧ cs.all isDig
  then some (cs.foldl (fun n c => n * 10 + (c.toNat - 48)) 0)
  else none

/-- Model of Python `int(s)` on a string: optional surrounding whitespace,
an optional sign, then a nonempty digit run; any other shape raises
`ValueError`, modelled as `none`.  (Underscore grouping and non-ASCII
digits accepted by CPython are outside the scope of this model.) -/
def pyInt (s : String) : Option Int :=
  let cs := ((s.data.dropWhile Char.isWhitespace).reverse.dropWhile Char.isWhitespace).reverse
  match cs with
  | '+' :: rest => (digitsVal rest).map fun n => (n : Int)
  | '-' :: rest => (digitsVal rest).map fun n => -(n : Int)
  | rest => (digitsVal rest).map fun n => (n : Int)

/-- Model of class `NewInformation` (src/tasks.py 24-68): one scraped
article.  `image_url` holds the local filename built during pagination. -/
structure NewInformation where
  title : String
  date : PyDateTime
  description : String
  image_url : String
deriving DecidableEq

/-- Number of non-overlapping occurrences of the nonempty pattern `sub` in
a character list, scanning left to right and skipping the matched block
(the behaviour of CPython `str.count` for a nonempty needle). -/
def countOccs (sub : List Char) : List Char → Nat
  | [] => 0
  | a :: t =>
    if h : sub ≠ [] ∧ sub.isPrefixOf (a :: t)
    then 1 + countOccs sub ((a :: t).drop sub.length)
    else countOccs sub t
termination_by s => s.length
decreasing_by
  · have hl : 0 < sub.length := List.length_pos.mpr h.1
    simp only [List.length_drop, List.length_cons]
    omega
  · simp only [List.length_cons]
    omega

/-- Model of Python `s.count(sub)`: CPython returns `len(s) + 1` for an
empty needle, and the non-overlapping occurrence count otherwise. -/
def pyCount (s sub : String) : Nat :=
  if sub.data = [] then s.data.length + 1 else countOccs sub.data s.data

/-- Method `count_of_phrase_occurrences` (src/tasks.py 64-65):
`self.__title.count(phrase) + self.__description.count(phrase)`. -/
def NewInformation.count_of_phrase_occurrences (n : NewInformation) (phrase : String) : Nat :=
  pyCount n.title phrase + pyCount n.description phrase

/-- Optional `search` sub-mapping of the work-item payload, with its three
optional keys. -/
structure SearchPayload where
  phrase : Option String
  months : Option Int
  topic : Option String

/-- Model of class `NewsParameters` (src/tasks.py 70-91) after
construction: the three values its accessors return. -/
structure NewsParameters where
  phrase : String
  months : Int
  topic : String
deriving DecidableEq

/-- Constructor of `NewsParameters`: the class-attribute defaults
`phrase=""`, `months=0`, `topic=""` stand unless the payload has a `search`
sub-mapping, in which case each present key overrides its own default
(pattern `x if x is not None else default` per key).  The constructor is
total: absence of the sub-mapping or of individual keys is not an error. -/
def NewsParameters.ofPayload (search : Option SearchPayload) : NewsParameters :=
  match search with
  | none => { phrase := "", months := 0, topic := "" }
  | some sp =>
    { phrase := sp.phrase.getD "", months := sp.months.getD 0, topic := sp.topic.getD "" }

/-- One result item of a search-results page, as the strategy's locators
read it from the DOM: raw `data-timestamp` attribute, image source, title
text and description text. -/
structure NewsItem where
  timestamp : String
  imageSrc : String
  title : String
  description : String
deriving DecidableEq

/-- Browser state visible to `get_news`: the sequence of result pages the
site serves and the index of the page currently displayed.  The "next
page" control is present exactly while a further page exists. -/
structure BrowserState where
  pages : List (List NewsItem)
  pos : Nat
deriving DecidableEq

/-- Result items of the page currently displayed. -/
def currentItems (st : BrowserState) : List NewsItem := st.pages.getD st.pos []

/-- Date resolution for one item (src/tasks.py 175-180): parse the raw
timestamp as integer milliseconds and convert it through
`datetime.fromtimestamp` (modelled by the environment's `fromMillis`); a
parse failure (`ValueError`) is logged and falls back to the current time
`now`. -/
def resolveDate (fromMillis : Int → PyDateTime) (now : PyDateTime) (ts : String) : PyDateTime :=
  match pyInt ts with
  | some n => fromMillis n
  | none => now

/-- Default item used only to state list lookups via `Option.getD`. -/
def blankItem : NewsItem := ⟨"", "", "", ""⟩

/-- Article built for result item `i` (1-based) of page number `page`
(src/tasks.py 185-195): the image field holds the local filename
`page-timestamp-index.png`. -/
def mkArticle (page : Nat) (i : Nat) (it : NewsItem) (d : PyDateTime) : NewInformation :=
  { title := it.title
    date := d
    description := it.description
    image_url := toString page ++ "-" ++ it.timestamp ++ "-" ++ toString i ++ ".png" }

/-- Outcome of the per-page item loop (src/tasks.py 170-197): the loop ran
through all its indices, or returned early out of `get_news` because an
item's date preceded the cutoff, or hit a driver error (an index with no
item on the page currently displayed). -/
inductive PageOutcome where
  | finished (acc : List NewInformation)
  | returned (acc : List NewInformation)
  | failed
deriving DecidableEq

/-- The `for result_index, element in enumerate(search_results, 1)` body of
`get_news`, iterated over the remaining 1-based indices `idxs` against the
items of the page currently displayed: each index is resolved on the live
DOM (`failed` models the driver error when the current page has no item at
that index), the item's date is resolved, a date strictly before the
cutoff returns the collected articles immediately, and otherwise the
article is appended and iteration continues. -/
def processItems (fromMillis : Int → PyDateTime) (now cutoff : PyDateTime) (page : Nat)
    (items : List NewsItem) : List Nat → List NewInformation → PageOutcome
  | [], acc => .finished acc
  | i :: idxs, acc =>
    match items[i - 1]? with
    | none => .failed
    | some it =>
      let d := resolveDate fromMillis now it.timestamp
      if PyDateTime.ltb d cutoff then .returned acc
      else processItems fromMillis now cutoff page items idxs (acc ++ [mkArticle page i it d])

/-- The next-page retry block of `get_news` (src/tasks.py 199-204): three
attempts, each of which clicks the next-page link; an
`ElementClickInterceptedException` (the oracle `intercepted`, indexed by a
global attempt counter) is caught and followed by a pause, and a
non-intercepted click advances one page — or raises (`none`) if the link
is absent.  The loop body has no break after a successful click. -/
def nextPageClicks (intercepted : Nat → Bool) :
    Nat → Nat → BrowserState → Option (Nat × BrowserState)
  | 0, clicks, st => some (clicks, st)
  | a + 1, clicks, st =>
    if intercepted clicks then nextPageClicks intercepted a (clicks + 1) st
    else if st.pos + 1 < st.pages.length then
      nextPageClicks intercepted a (clicks + 1) { st with pos := st.pos + 1 }
    else none

/-- The `while self.__browser.is_element_visible(next_page_link)` loop of
`get_news`: process the current page's indices `1..n0` (`n0` fixed at
entry), then run the next-page retry block and increment the page counter.
`fuel` bounds the number of iterations, `none` modelling a driver error or
a run longer than the fuel; `clicks` is the global click-attempt counter
feeding the interception oracle. -/
def getNewsLoop (fromMillis : Int → PyDateTime) (now : PyDateTime) (intercepted : Nat → Bool)
    (cutoff : PyDateTime) (n0 : Nat) :
    Nat → Nat → Nat → BrowserState → List NewInformation → Option (List NewInformation)
  | 0, _, _, _, _ => none
  | fuel + 1, clicks, page, st, acc =>
    if st.pos + 1 < st.pages.length then
      match processItems fromMillis now cutoff page (currentItems st) (List.range' 1 n0) acc with
      | .failed => none
      | .returned v => some v
      | .finished acc2 =>
        match nextPageClicks intercepted 3 clicks st with
        | none => none
        | some (clicks2, st2) =>
          getNewsLoop fromMillis now intercepted cutoff n0 fuel clicks2 (page + 1) st2 acc2
    else some acc

/-- Method `LATimesLogic.get_news` (src/tasks.py 159-208): `search_results`
is located once at entry (fixing the enumerated index range `1..n0` from
the page displayed at entry), the cutoff is computed once from `now`, and
the pagination loop starts with page counter 0, click counter 0 and no
collected articles. -/
def getNews (fromMillis : Int → PyDateTime) (now : PyDateTime) (intercepted : Nat → Bool)
    (months : Nat) (fuel : Nat) (st : BrowserState) : Option (List NewInformation) :=
  getNewsLoop fromMillis now intercepted (maxDateToSearch months now)
    (currentItems st).length fuel 0 0 st []

/-- Shorthand for regular expressions over characters. -/
abbrev RE := RegularExpression Char

/-- Alternation of single characters: the language of the one-character
words over `cs`. -/
def chOf (cs : List Char) : RE :=
  cs.foldr (fun c r => RegularExpression.char c + r) 0

/-- The `\d` class of the money regex (ASCII scope, see `isDig`). -/
def digitRE : RE := chOf ['0', '1', '2', '3', '4', '5', '6', '7', '8', '9']

/-- Postfix `?` of the regex syntax: one occurrence or none. -/
def optRE (r : RE) : RE := r + 1

/-- Counted repetition `{1,3}` of the regex syntax: one occurrence
followed by two optional ones. -/
def rep13 (r : RE) : RE := r * optRE r * optRE r

/-- Literal word as a regex. -/
def wordRE (cs : List Char) : RE :=
  cs.foldr (fun c r => RegularExpression.char c * r) 1

/-- The pattern of `has_money` (src/tasks.py 67-68), structured like the
source text `\$?(\d{1,3},?\d{1,3}\.?\d*)\d* ?(dollars|USD)?`: an optional
dollar sign, the group of one-to-three digits, an optional comma,
one-to-three digits, an optional dot and optional digits, then more
optional digits, an optional space and an optional "dollars"/"USD" word. -/
def moneyRE : RE :=
  optRE (RegularExpression.char '$')
    * (rep13 digitRE * optRE (RegularExpression.char ',') * rep13 digitRE
        * optRE (RegularExpression.char '.') * RegularExpression.star digitRE)
    * RegularExpression.star digitRE
    * optRE (RegularExpression.char ' ')
    * optRE (wordRE "dollars".data + wordRE "USD".data)

/-- Model of `re.search(P, s) is not None`: some slice of `s` (a prefix of
a suffix) matches `P` in full. -/
def reSearch (P : RE) (s : List Char) : Bool :=
  s.tails.any fun t => t.inits.any fun m => P.rmatch m

/-- Method `has_money` (src/tasks.py 67-68): the money pattern is searched
in the title or, failing that, in the description. -/
def NewInformation.has_money (n : NewInformation) : Bool :=
  reSearch moneyRE n.title.data || reSearch moneyRE n.description.data

/-- Decidable scan for the mandatory core of the money pattern: two
adjacent digits, or a digit, a comma and a digit in a row. -/
def hasCoreL : List Char → Bool
  | a :: b :: c :: rest =>
    (isDig a && isDig b)
      || (isDig a && decide (b = ',') && isDig c)
      || hasCoreL (b :: c :: rest)
  | [a, b] => isDig a && isDig b
  | _ => false

/-- Decidable scan for two adjacent digits. -/
def twoConsecDigits : List Char → Bool
  | a :: b :: rest => (isDig a && isDig b) || twoConsecDigits (b :: rest)
  | _ => false

/-- Occurrence of the mandatory digit core somewhere in a text: two
adjacent digits, or a digit-comma-digit block. -/
inductive CoreAt : List Char → Prop
  | dd (a b : Char) (rest : List Char) : isDig a = true → isDig b = true →
      CoreAt (a :: b :: rest)
  | dcd (a b : Char) (rest : List Char) : isDig a = true → isDig b = true →
      CoreAt (a :: ',' :: b :: rest)
  | cons (c : Char) (s : List Char) : CoreAt s → CoreAt (c :: s)

/-- Currency form as the claim words it (spec-side definition, used only
to compare the claim against the code's pattern): an optional dollar
sign, one to three digits, an optional comma-grouping part, an optional
decimal part, optionally followed by a space and "dollars" or "USD". -/
def specCurrencyRE : RE :=
  optRE (RegularExpression.char '$')
    * rep13 digitRE
    * optRE (RegularExpression.char ',' * rep13 digitRE)
    * optRE (RegularExpression.char '.' * (digitRE * RegularExpression.star digitRE))
    * optRE (optRE (RegularExpression.char ' ') * (wordRE "dollars".data + wordRE "USD".data))

/-- C3 counterexample: with `months = 3` and now = 2024-05-15 12:00:00 the
cutoff computed by `get_news` is 2024-03-01 12:00:00 — the first day of
the right month but at the time of day of `now`, not at midnight, because
`.replace(day=1)` replaces only the day field. -/
theorem c3_cutoff_not_midnight_counterexample :
    maxDateToSearch 3 ⟨2024, 5, 15, 12, 0, 0, 0⟩ = ⟨2024, 3, 1, 12, 0, 0, 0⟩ ∧
    maxDateToSearch 3 ⟨2024, 5, 15, 12, 0, 0, 0⟩ ≠ ⟨2024, 3, 1, 0, 0, 0, 0⟩ := by
  constructor <;> decide

/-- C3 (amended): the cutoff has day 1; its absolute month index is that of
`now` minus `months - 1` when `months > 0` (minus 0 when `months = 0`),
with the month field normalised into 1..12; and its time-of-day fields are
those of `now` — midnight only when `now` is at midnight, as in the spec's
example now = 2024-05-15 00:00:00, months = 3, cutoff 2024-03-01 00:00:00. -/
theorem c3_cutoff_amended :
    maxDateToSearch 3 ⟨2024, 5, 15, 0, 0, 0, 0⟩ = ⟨2024, 3, 1, 0, 0, 0, 0⟩ ∧
    ∀ (months : Nat) (now : PyDateTime),
      (maxDateToSearch months now).day = 1 ∧
      (maxDateToSearch months now).hour = now.hour ∧
      (maxDateToSearch months now).minute = now.minute ∧
      (maxDateToSearch months now).second = now.second ∧
      (maxDateToSearch months now).micro = now.micro ∧
      (maxDateToSearch months now).year * 12 + ((maxDateToSearch months now).month - 1)
        = now.year * 12 + (now.month - 1) - (if months = 0 then 0 else (months : Int) - 1) ∧
      1 ≤ (maxDateToSearch months now).month ∧ (maxDateToSearch months now).month ≤ 12 := by
  refine ⟨by decide, fun months now => ?_⟩
  have hcast : ((if months ≠ 0 then months - 1 else 0 : Nat) : Int)
      = if months = 0 then 0 else (months : Int) - 1 := by
    by_cases hm : months = 0
    · simp [hm]
    · have h1 : 1 ≤ months := Nat.one_le_iff_ne_zero.mpr hm
      simp only [hm, if_false, if_true, ne_eq, not_false_iff]
      omega
  simp only [maxDateToSearch, subMonths, hcast]
  and_intros <;> first | trivial | omega

/-- C7: for every article and nonempty phrase, the phrase-occurrence count
is the count of non-overlapping occurrences in the title plus the count in
the description, and it is non-negative. -/
theorem c7_count_additive (n : NewInformation) (phrase : String) (h : phrase ≠ "") :
    n.count_of_phrase_occurrences phrase
        = countOccs phrase.data n.title.data + countOccs phrase.data n.description.data ∧
      0 ≤ n.count_of_phrase_occurrences phrase := by
  have hd : phrase.data ≠ [] := by
    intro hnil
    exact h (by cases phrase with | mk l => simpa using congrArg String.mk hnil)
  constructor
  · simp [NewInformation.count_of_phrase_occurrences, pyCount, hd]
  · exact Nat.zero_le _

/-- C7 witness: a concrete article and phrase instantiating the additivity
theorem. -/
theorem c7_count_additive_witness :
    ("economy" : String) ≠ "" ∧
      (NewInformation.count_of_phrase_occurrences
          ⟨"economy now", ⟨2024, 5, 15, 0, 0, 0, 0⟩, "old economy, new economy", "x.png"⟩
          "economy"
        = countOccs "economy".data "economy now".data
            + countOccs "economy".data "old economy, new economy".data ∧
       0 ≤ NewInformation.count_of_phrase_occurrences
          ⟨"economy now", ⟨2024, 5, 15, 0, 0, 0, 0⟩, "old economy, new economy", "x.png"⟩
          "economy") :=
  ⟨by decide,
   c7_count_additive
     ⟨"economy now", ⟨2024, 5, 15, 0, 0, 0, 0⟩, "old economy, new economy", "x.png"⟩
     "economy" (by decide)⟩

/-- C10: the empty phrase does not raise and counts `len(title) +
len(description) + 2`, because `str.count` yields length + 1 for an empty
needle on each of the two fields. -/
theorem c10_empty_phrase (n : NewInformation) :
    n.count_of_phrase_occurrences "" = n.title.data.length + n.description.data.length + 2 := by
  simp [NewInformation.count_of_phrase_occurrences, pyCount]
  omega

/-- C8: constructing `NewsParameters` is total, a missing `search`
sub-mapping or missing individual keys yield the defaults `phrase=""`,
`months=0`, `topic=""`, and a present key overrides only its own default. -/
theorem c8_parameters_defaults (po : Option String) (pm : Option Int) (pt : Option String) :
    NewsParameters.ofPayload none = ⟨"", 0, ""⟩ ∧
      (NewsParameters.ofPayload (some ⟨none, pm, pt⟩)).phrase = "" ∧
      (NewsParameters.ofPayload (some ⟨po, none, pt⟩)).months = 0 ∧
      (NewsParameters.ofPayload (some ⟨po, pm, none⟩)).topic = "" ∧
      NewsParameters.ofPayload (some ⟨po, pm, pt⟩)
        = ⟨po.getD "", pm.getD 0, pt.getD ""⟩ :=
  ⟨rfl, rfl, rfl, rfl, rfl⟩

/-- Helper: the item loop over an index list whose every index resolves on
the current page to an item dated at or after the cutoff completes the
page, appending exactly those items' articles in order. -/
theorem processItems_finished (fromMillis : Int → PyDateTime) (now cutoff : PyDateTime)
    (page : Nat) (items : List NewsItem) (idxs : List Nat) :
    ∀ acc : List NewInformation,
      (∀ i ∈ idxs, ((items[i - 1]?).any fun it =>
          !PyDateTime.ltb (resolveDate fromMillis now it.timestamp) cutoff) = true) →
      processItems fromMillis now cutoff page items idxs acc
        = .finished (acc ++ idxs.map fun i =>
            mkArticle page i ((items[i - 1]?).getD blankItem)
              (resolveDate fromMillis now ((items[i - 1]?).getD blankItem).timestamp)) := by
  induction idxs with
  | nil => intro acc _; simp [processItems]
  | cons i idxs ih =>
    intro acc h
    have hi := h i (List.mem_cons_self i idxs)
    cases hgi : items[i - 1]? with
    | none => rw [hgi] at hi; simp [Option.any] at hi
    | some it =>
      rw [hgi] at hi
      have hlt : PyDateTime.ltb (resolveDate fromMillis now it.timestamp) cutoff = false := by
        simpa [Option.any] using hi
      simp only [processItems, hgi, hlt, if_false, Bool.false_eq_true]
      rw [ih (acc ++ [mkArticle page i it (resolveDate fromMillis now it.timestamp)])
          (fun j hj => h j (List.mem_cons_of_mem i hj))]
      simp [hgi, List.append_assoc]

/-- Helper: the item loop distributes over an append of index lists — the
second block runs only when the first finishes without an early return. -/
theorem processItems_append (fromMillis : Int → PyDateTime) (now cutoff : PyDateTime)
    (page : Nat) (items : List NewsItem) (idxs1 idxs2 : List Nat) :
    ∀ acc : List NewInformation,
      processItems fromMillis now cutoff page items (idxs1 ++ idxs2) acc
        = match processItems fromMillis now cutoff page items idxs1 acc with
          | .finished acc2 => processItems fromMillis now cutoff page items idxs2 acc2
          | .returned v => .returned v
          | .failed => .failed := by
  induction idxs1 with
  | nil => intro acc; simp [processItems]
  | cons i idxs1 ih =>
    intro acc
    cases hgi : items[i - 1]? with
    | none => simp [processItems, hgi]
    | some it =>
      cases hlt : PyDateTime.ltb (resolveDate fromMillis now it.timestamp) cutoff with
      | true => simp [processItems, hgi, hlt]
      | false => simp [processItems, hgi, hlt, ih]

/-- Helper: words matched by a one-character alternation. -/
theorem chOf_rmatch (cs : List Char) (w : List Char) :
    (chOf cs).rmatch w = true ↔ ∃ c ∈ cs, w = [c] := by
  induction cs with
  | nil => simp [chOf]
  | cons c cs ih =>
    have hu : chOf (c :: cs) = RegularExpression.char c + chOf cs := rfl
    rw [hu]
    constructor
    · intro h
      rcases (RegularExpression.add_rmatch_iff _ _ _).mp h with h | h
      · exact ⟨c, List.mem_cons_self c cs, (RegularExpression.char_rmatch_iff _ _).mp h⟩
      · rcases ih.mp h with ⟨d, hd, rfl⟩
        exact ⟨d, List.mem_cons_of_mem c hd, rfl⟩
    · rintro ⟨d, hd, rfl⟩
      rcases List.mem_cons.mp hd with rfl | hd
      · exact (RegularExpression.add_rmatch_iff _ _ _).mpr
          (Or.inl ((RegularExpression.char_rmatch_iff _ _).mpr rfl))
      · exact (RegularExpression.add_rmatch_iff _ _ _).mpr (Or.inr (ih.mpr ⟨d, hd, rfl⟩))

/-- Helper: words matched by the digit class are single digits. -/
theorem digitRE_rmatch (w : List Char) :
    digitRE.rmatch w = true ↔ ∃ c, isDig c = true ∧ w = [c] := by
  rw [digitRE, chOf_rmatch]
  constructor
  · rintro ⟨c, hc, rfl⟩
    exact ⟨c, by simp [isDig, hc], rfl⟩
  · rintro ⟨c, hc, rfl⟩
    exact ⟨c, by simpa [isDig] using hc, rfl⟩

/-- Helper: words matched by an optional regex. -/
theorem optRE_rmatch (r : RE) (w : List Char) :
    (optRE r).rmatch w = true ↔ (r.rmatch w = true ∨ w = []) := by
  rw [optRE]
  constructor
  · intro h
    rcases (RegularExpression.add_rmatch_iff _ _ _).mp h with h | h
    · exact Or.inl h
    · exact Or.inr ((RegularExpression.one_rmatch_iff _).mp h)
  · intro h
    rcases h with h | rfl
    · exact (RegularExpression.add_rmatch_iff _ _ _).mpr (Or.inl h)
    · exact (RegularExpression.add_rmatch_iff _ _ _).mpr
        (Or.inr ((RegularExpression.one_rmatch_iff _).mpr rfl))

/-- Helper: a starred regex matches the empty word. -/
theorem star_rmatch_nil (r : RE) : (RegularExpression.star r).rmatch [] = true := rfl

/-- Helper: a word matched by one-to-three digits is a nonempty all-digit
word. -/
theorem rep13_digit_shape (w : List Char) (h : (rep13 digitRE).rmatch w = true) :
    w ≠ [] ∧ ∀ c ∈ w, isDig c = true := by
  have hopt : ∀ v : List Char, (optRE digitRE).rmatch v = true → ∀ d ∈ v, isDig d = true := by
    intro v hv d hd
    rcases (optRE_rmatch _ _).mp hv with hv | rfl
    · rcases (digitRE_rmatch _).mp hv with ⟨e, he, rfl⟩
      have hde : d = e := by simpa using hd
      exact hde ▸ he
    · simp at hd
  rw [rep13] at h
  rcases (RegularExpression.mul_rmatch_iff _ _ _).mp h with ⟨t, u, rfl, h1, h2⟩
  rcases (RegularExpression.mul_rmatch_iff _ _ _).mp h1 with ⟨t1, u1, rfl, h3, h4⟩
  rcases (digitRE_rmatch _).mp h3 with ⟨c, hc, rfl⟩
  refine ⟨by simp, ?_⟩
  intro d hd
  simp only [List.cons_append, List.nil_append, List.mem_cons, List.mem_append] at hd
  rcases hd with rfl | hd | hd
  · exact hc
  · exact hopt u1 h4 d hd
  · exact hopt u h2 d hd

/-- Helper: a single digit is matched by one-to-three digits. -/
theorem rep13_digit_single (c : Char) (hc : isDig c = true) :
    (rep13 digitRE).rmatch [c] = true := by
  rw [rep13]
  refine (RegularExpression.mul_rmatch_iff _ _ _).mpr
    ⟨[c], [], by simp, ?_, (optRE_rmatch _ _).mpr (Or.inr rfl)⟩
  exact (RegularExpression.mul_rmatch_iff _ _ _).mpr
    ⟨[c], [], by simp, (digitRE_rmatch _).mpr ⟨c, hc, rfl⟩, (optRE_rmatch _ _).mpr (Or.inr rfl)⟩

/-- Helper: the core is preserved by prepending text. -/
theorem CoreAt.append_left (l : List Char) {t : List Char} (h : CoreAt t) : CoreAt (l ++ t) := by
  induction l with
  | nil => simpa using h
  | cons c l ih => exact CoreAt.cons c _ ih

/-- Helper: the core is preserved by appending text. -/
theorem CoreAt.append_right {s : List Char} (r : List Char) (h : CoreAt s) : CoreAt (s ++ r) := by
  induction h with
  | dd a b rest ha hb => exact CoreAt.dd a b (rest ++ r) ha hb
  | dcd a b rest ha hb => exact CoreAt.dcd a b (rest ++ r) ha hb
  | cons c s hs ih => exact CoreAt.cons c _ ih

/-- Helper: `re.search` succeeds exactly when some slice matches in full. -/
theorem reSearch_iff (P : RE) (s : List Char) :
    reSearch P s = true ↔ ∃ l m r, s = l ++ m ++ r ∧ P.rmatch m = true := by
  rw [reSearch, List.any_eq_true]
  constructor
  · rintro ⟨t, ht, h2⟩
    rw [List.mem_tails] at ht
    rw [List.any_eq_true] at h2
    rcases h2 with ⟨m, hm, hP⟩
    rw [List.mem_inits] at hm
    rcases ht with ⟨l, rfl⟩
    rcases hm with ⟨r, rfl⟩
    exact ⟨l, m, r, by simp, hP⟩
  · rintro ⟨l, m, r, rfl, hP⟩
    refine ⟨m ++ r, ?_, ?_⟩
    · rw [List.mem_tails]
      exact ⟨l, by simp⟩
    · rw [List.any_eq_true]
      exact ⟨m, by rw [List.mem_inits]; exact ⟨r, rfl⟩, hP⟩

/-- Helper: a core occurrence needs at least two characters. -/
theorem CoreAt.two_le_length {s : List Char} (h : CoreAt s) : 2 ≤ s.length := by
  induction h with
  | dd a b rest ha hb => simp
  | dcd a b rest ha hb => simp
  | cons c s hs ih =>
    simp only [List.length_cons]
    omega

/-- Helper: the decidable core scan is sound for the core predicate. -/
theorem coreAt_of_hasCoreL (s : List Char) (h : hasCoreL s = true) : CoreAt s := by
  induction s with
  | nil => simp [hasCoreL] at h
  | cons a t ih =>
    cases t with
    | nil => simp [hasCoreL] at h
    | cons b r =>
      cases r with
      | nil =>
        rw [hasCoreL] at h
        simp only [Bool.and_eq_true] at h
        exact CoreAt.dd a b [] h.1 h.2
      | cons c rr =>
        rw [hasCoreL] at h
        simp only [Bool.or_eq_true, Bool.and_eq_true, decide_eq_true_eq] at h
        rcases h with (⟨ha, hb⟩ | ⟨⟨ha, hb⟩, hc⟩) | h
        · exact CoreAt.dd a b (c :: rr) ha hb
        · subst hb
          exact CoreAt.dcd a c rr ha hc
        · exact CoreAt.cons a _ (ih h)

/-- Helper: the decidable core scan is complete for the core predicate. -/
theorem hasCoreL_of_coreAt {s : List Char} (h : CoreAt s) : hasCoreL s = true := by
  induction h with
  | dd a b rest ha hb =>
    cases rest with
    | nil => simp [hasCoreL, ha, hb]
    | cons c rr => simp [hasCoreL, ha, hb]
  | dcd a b rest ha hb => simp [hasCoreL, ha, hb]
  | cons c s hs ih =>
    cases s with
    | nil => exact absurd (CoreAt.two_le_length hs) (by simp)
    | cons b r =>
      cases r with
      | nil => exact absurd (CoreAt.two_le_length hs) (by simp)
      | cons c2 rr => simp [hasCoreL, ih]

/-- Helper: two adjacent digits are a core occurrence. -/
theorem twoConsec_core (s : List Char) (h : twoConsecDigits s = true) : hasCoreL s = true := by
  induction s with
  | nil => simp [twoConsecDigits] at h
  | cons a t ih =>
    cases t with
    | nil => simp [twoConsecDigits] at h
    | cons b r =>
      cases r with
      | nil =>
        rw [twoConsecDigits] at h
        simp only [Bool.or_eq_true, Bool.and_eq_true] at h
        rcases h with ⟨ha, hb⟩ | h
        · simp [hasCoreL, ha, hb]
        · simp [twoConsecDigits] at h
      | cons c rr =>
        rw [twoConsecDigits] at h
        simp only [Bool.or_eq_true, Bool.and_eq_true] at h
        rcases h with ⟨ha, hb⟩ | h
        · simp [hasCoreL, ha, hb]
        · simp [hasCoreL, ih h]

/-- Helper: every word matched by the mandatory group of the money
pattern contains a core occurrence. -/
theorem group_core (g : List Char)
    (h : (rep13 digitRE * optRE (RegularExpression.char ',') * rep13 digitRE
        * optRE (RegularExpression.char '.') * RegularExpression.star digitRE).rmatch g
      = true) :
    CoreAt g := by
  rcases (RegularExpression.mul_rmatch_iff _ _ _).mp h with ⟨p, ds, rfl, hp, _⟩
  rcases (RegularExpression.mul_rmatch_iff _ _ _).mp hp with ⟨q, dotw, rfl, hq, _⟩
  rcases (RegularExpression.mul_rmatch_iff _ _ _).mp hq with ⟨e, d2, rfl, he, hd2⟩
  rcases (RegularExpression.mul_rmatch_iff _ _ _).mp he with ⟨d1, cw, rfl, hd1, hcw⟩
  obtain ⟨hne1, hdig1⟩ := rep13_digit_shape d1 hd1
  obtain ⟨hne2, hdig2⟩ := rep13_digit_shape d2 hd2
  obtain ⟨l1, a, rfl⟩ : ∃ l1 a, d1 = l1 ++ [a] :=
    ⟨d1.dropLast, d1.getLast hne1, (d1.dropLast_append_getLast hne1).symm⟩
  obtain ⟨b, d2t, rfl⟩ : ∃ b d2t, d2 = b :: d2t :=
    ⟨d2.head hne2, d2.tail, (d2.head_cons_tail hne2).symm⟩
  have ha : isDig a = true := hdig1 a (by simp)
  have hb : isDig b = true := hdig2 b (by simp)
  rcases (optRE_rmatch _ _).mp hcw with hcw | rfl
  · have hcw2 : cw = [','] := (RegularExpression.char_rmatch_iff _ _).mp hcw
    subst hcw2
    have hs : CoreAt (l1 ++ (a :: ',' :: b :: (d2t ++ (dotw ++ ds)))) :=
      CoreAt.append_left l1 (CoreAt.dcd a b _ ha hb)
    simpa using hs
  · have hs : CoreAt (l1 ++ (a :: b :: (d2t ++ (dotw ++ ds)))) :=
      CoreAt.append_left l1 (CoreAt.dd a b _ ha hb)
    simpa using hs

/-- Helper: every word matched by the whole money pattern contains a core
occurrence. -/
theorem moneyRE_core (w : List Char) (h : moneyRE.rmatch w = true) : CoreAt w := by
  rw [moneyRE] at h
  rcases (RegularExpression.mul_rmatch_iff _ _ _).mp h with ⟨x, suf, rfl, hx, _⟩
  rcases (RegularExpression.mul_rmatch_iff _ _ _).mp hx with ⟨y, sp, rfl, hy, _⟩
  rcases (RegularExpression.mul_rmatch_iff _ _ _).mp hy with ⟨z, dstar, rfl, hz, _⟩
  rcases (RegularExpression.mul_rmatch_iff _ _ _).mp hz with ⟨dol, g, rfl, _, hg⟩
  have hs : CoreAt (dol ++ (g ++ (dstar ++ (sp ++ suf)))) :=
    CoreAt.append_left dol (CoreAt.append_right _ (group_core g hg))
  simpa using hs

/-- Helper: two adjacent digits are matched by the money pattern. -/
theorem moneyRE_dd (a b : Char) (ha : isDig a = true) (hb : isDig b = true) :
    moneyRE.rmatch [a, b] = true := by
  rw [moneyRE]
  refine (RegularExpression.mul_rmatch_iff _ _ _).mpr
    ⟨[a, b], [], by simp, ?_, (optRE_rmatch _ _).mpr (Or.inr rfl)⟩
  refine (RegularExpression.mul_rmatch_iff _ _ _).mpr
    ⟨[a, b], [], by simp, ?_, (optRE_rmatch _ _).mpr (Or.inr rfl)⟩
  refine (RegularExpression.mul_rmatch_iff _ _ _).mpr
    ⟨[a, b], [], by simp, ?_, star_rmatch_nil _⟩
  refine (RegularExpression.mul_rmatch_iff _ _ _).mpr
    ⟨[], [a, b], by simp, (optRE_rmatch _ _).mpr (Or.inr rfl), ?_⟩
  refine (RegularExpression.mul_rmatch_iff _ _ _).mpr
    ⟨[a, b], [], by simp, ?_, star_rmatch_nil _⟩
  refine (RegularExpression.mul_rmatch_iff _ _ _).mpr
    ⟨[a, b], [], by simp, ?_, (optRE_rmatch _ _).mpr (Or.inr rfl)⟩
  refine (RegularExpression.mul_rmatch_iff _ _ _).mpr
    ⟨[a], [b], by simp, ?_, rep13_digit_single b hb⟩
  exact (RegularExpression.mul_rmatch_iff _ _ _).mpr
    ⟨[a], [], by simp, rep13_digit_single a ha, (optRE_rmatch _ _).mpr (Or.inr rfl)⟩

/-- Helper: a digit-comma-digit block is matched by the money pattern. -/
theorem moneyRE_dcd (a b : Char) (ha : isDig a = true) (hb : isDig b = true) :
    moneyRE.rmatch [a, ',', b] = true := by
  rw [moneyRE]
  refine (RegularExpression.mul_rmatch_iff _ _ _).mpr
    ⟨[a, ',', b], [], by simp, ?_, (optRE_rmatch _ _).mpr (Or.inr rfl)⟩
  refine (RegularExpression.mul_rmatch_iff _ _ _).mpr
    ⟨[a, ',', b], [], by simp, ?_, (optRE_rmatch _ _).mpr (Or.inr rfl)⟩
  refine (RegularExpression.mul_rmatch_iff _ _ _).mpr
    ⟨[a, ',', b], [], by simp, ?_, star_rmatch_nil _⟩
  refine (RegularExpression.mul_rmatch_iff _ _ _).mpr
    ⟨[], [a, ',', b], by simp, (optRE_rmatch _ _).mpr (Or.inr rfl), ?_⟩
  refine (RegularExpression.mul_rmatch_iff _ _ _).mpr
    ⟨[a, ',', b], [], by simp, ?_, star_rmatch_nil _⟩
  refine (RegularExpression.mul_rmatch_iff _ _ _).mpr
    ⟨[a, ',', b], [], by simp, ?_, (optRE_rmatch _ _).mpr (Or.inr rfl)⟩
  refine (RegularExpression.mul_rmatch_iff _ _ _).mpr
    ⟨[a, ','], [b], by simp, ?_, rep13_digit_single b hb⟩
  refine (RegularExpression.mul_rmatch_iff _ _ _).mpr
    ⟨[a], [','], by simp, rep13_digit_single a ha, ?_⟩
  exact (optRE_rmatch _ _).mpr (Or.inl ((RegularExpression.char_rmatch_iff _ _).mpr rfl))

/-- Helper: a core occurrence yields a slice matched by the money
pattern. -/
theorem coreAt_decomp {s : List Char} (h : CoreAt s) :
    ∃ l m r, s = l ++ m ++ r ∧ moneyRE.rmatch m = true := by
  induction h with
  | dd a b rest ha hb => exact ⟨[], [a, b], rest, by simp, moneyRE_dd a b ha hb⟩
  | dcd a b rest ha hb => exact ⟨[], [a, ',', b], rest, by simp, moneyRE_dcd a b ha hb⟩
  | cons c s hs ih =>
    rcases ih with ⟨l, m, r, rfl, hm⟩
    exact ⟨c :: l, m, r, by simp, hm⟩

/-- Helper: searching the money pattern in a text succeeds exactly when
the text contains the mandatory core. -/
theorem reSearch_moneyRE_iff_core (s : List Char) :
    reSearch moneyRE s = true ↔ hasCoreL s = true := by
  rw [reSearch_iff]
  constructor
  · rintro ⟨l, m, r, rfl, hm⟩
    exact hasCoreL_of_coreAt
      (CoreAt.append_right r (CoreAt.append_left l (moneyRE_core m hm)))
  · intro h
    exact coreAt_decomp (coreAt_of_hasCoreL s h)

/-- Helper: `has_money` holds exactly when the title or the description
contains the mandatory digit core of the pattern. -/
theorem has_money_iff_core (n : NewInformation) :
    n.has_money = true
      ↔ (hasCoreL n.title.data = true ∨ hasCoreL n.description.data = true) := by
  rw [NewInformation.has_money, Bool.or_eq_true,
    reSearch_moneyRE_iff_core, reSearch_moneyRE_iff_core]

/-- C2: the code contradicts its own comment "Successful click, exit the
loop" — the retry block has no break, so with no interception all three
attempts click the link, advancing three pages instead of exactly one;
with all three attempts intercepted the block raises nothing and leaves
the position unchanged, letting the loop re-check the control. -/
theorem c2_retry_clicks_all_attempts :
    nextPageClicks (fun _ => false) 3 0 ⟨[[], [], [], []], 0⟩
        = some (3, ⟨[[], [], [], []], 3⟩) ∧
      (⟨[[], [], [], []], 3⟩ : BrowserState).pos ≠ 0 + 1 ∧
      nextPageClicks (fun _ => true) 3 0 ⟨[[], [], [], []], 0⟩
        = some (3, ⟨[[], [], [], []], 0⟩) := by
  refine ⟨by decide, by decide, by decide⟩

/-- C5: an unparseable raw timestamp does not abort the page: the resolved
date falls back to the current time `now` and — since `now` is never
strictly before the cutoff `get_news` derives from the same `now` — the
item is appended with date `now` and processing continues with the
remaining indices. -/
theorem c5_timestamp_fallback (fromMillis : Int → PyDateTime) (now cutoff : PyDateTime)
    (page : Nat) (items : List NewsItem) (i : Nat) (idxs : List Nat)
    (acc : List NewInformation) (it : NewsItem)
    (hget : items[i - 1]? = some it)
    (hparse : pyInt it.timestamp = none)
    (hnow : PyDateTime.ltb now cutoff = false) :
    resolveDate fromMillis now it.timestamp = now ∧
      processItems fromMillis now cutoff page items (i :: idxs) acc
        = processItems fromMillis now cutoff page items idxs
            (acc ++ [mkArticle page i it now]) := by
  have hres : resolveDate fromMillis now it.timestamp = now := by
    simp [resolveDate, hparse]
  refine ⟨hres, ?_⟩
  simp [processItems, hget, hres, hnow]

/-- C5 witness: a concrete item whose timestamp attribute is not an
integer: the article's date is the current time and the page goes on. -/
theorem c5_timestamp_fallback_witness :
    ([(⟨"not-a-number", "img", "tX", "dX"⟩ : NewsItem)][0]?
        = some ⟨"not-a-number", "img", "tX", "dX"⟩) ∧
      pyInt "not-a-number" = none ∧
      PyDateTime.ltb ⟨2024, 5, 15, 10, 0, 0, 0⟩ ⟨2024, 5, 1, 10, 0, 0, 0⟩ = false ∧
      (resolveDate (fun _ => ⟨2024, 6, 1, 0, 0, 0, 0⟩) ⟨2024, 5, 15, 10, 0, 0, 0⟩
          "not-a-number" = ⟨2024, 5, 15, 10, 0, 0, 0⟩ ∧
        processItems (fun _ => ⟨2024, 6, 1, 0, 0, 0, 0⟩) ⟨2024, 5, 15, 10, 0, 0, 0⟩
            ⟨2024, 5, 1, 10, 0, 0, 0⟩ 0 [⟨"not-a-number", "img", "tX", "dX"⟩] [1] []
          = processItems (fun _ => ⟨2024, 6, 1, 0, 0, 0, 0⟩) ⟨2024, 5, 15, 10, 0, 0, 0⟩
              ⟨2024, 5, 1, 10, 0, 0, 0⟩ 0 [⟨"not-a-number", "img", "tX", "dX"⟩] []
              ([] ++ [mkArticle 0 1 ⟨"not-a-number", "img", "tX", "dX"⟩
                  ⟨2024, 5, 15, 10, 0, 0, 0⟩])) :=
  ⟨by decide, by decide, by decide,
   c5_timestamp_fallback (fun _ => ⟨2024, 6, 1, 0, 0, 0, 0⟩) ⟨2024, 5, 15, 10, 0, 0, 0⟩
     ⟨2024, 5, 1, 10, 0, 0, 0⟩ 0 [⟨"not-a-number", "img", "tX", "dX"⟩] 1 [] []
     ⟨"not-a-number", "img", "tX", "dX"⟩ (by decide) (by decide) (by decide)⟩

/-- C1 counterexample: `search_results` is located once before the loop, so
every iteration enumerates the index range of the entry page (here a
single item) — on the second page, which holds two items and still shows a
next-page control, only the first item is processed, although the claim
demands both of that page's entries. -/
theorem c1_frozen_enumeration_counterexample :
    (getNews (fun _ => ⟨2024, 6, 1, 0, 0, 0, 0⟩) ⟨2024, 5, 15, 0, 0, 0, 0⟩
          (fun c => !decide (c % 3 = 0)) 0 10
          ⟨[[⟨"100", "a", "tA", "dA"⟩],
            [⟨"100", "b", "tB", "dB"⟩, ⟨"100", "c", "tC", "dC"⟩],
            [⟨"100", "e", "tE", "dE"⟩]], 0⟩).map (List.map NewInformation.title)
        = some ["tA", "tB"] ∧
      (some ["tA", "tB"] : Option (List String)) ≠ some ["tA", "tB", "tC"] := by
  constructor <;> decide

/-- C1 (amended): a loop iteration enumerates the 1-based indices
`1..n0`, where `n0` is the number of result items located once at entry —
not the current page's own item count; each index is resolved against the
page currently displayed, so the iteration processes the first `n0` items
of the current page, in order (here when each of those items exists and
none precedes the cutoff). -/
theorem c1_iteration_amended (fromMillis : Int → PyDateTime) (now cutoff : PyDateTime)
    (page n0 : Nat) (items : List NewsItem) (acc : List NewInformation)
    (h : ∀ i ∈ List.range' 1 n0, ((items[i - 1]?).any fun it =>
        !PyDateTime.ltb (resolveDate fromMillis now it.timestamp) cutoff) = true) :
    processItems fromMillis now cutoff page items (List.range' 1 n0) acc
      = .finished (acc ++ (List.range' 1 n0).map fun i =>
          mkArticle page i ((items[i - 1]?).getD blankItem)
            (resolveDate fromMillis now ((items[i - 1]?).getD blankItem).timestamp)) :=
  processItems_finished fromMillis now cutoff page items (List.range' 1 n0) acc h

/-- C1 amended witness: against a two-item current page with `n0 = 1`,
one iteration processes exactly the page's first item. -/
theorem c1_iteration_amended_witness :
    (∀ i ∈ List.range' 1 1, ((([(⟨"100", "b", "tB", "dB"⟩ : NewsItem),
          ⟨"100", "c", "tC", "dC"⟩][i - 1]?).any fun it =>
        !PyDateTime.ltb (resolveDate (fun _ => ⟨2024, 6, 1, 0, 0, 0, 0⟩)
          ⟨2024, 5, 15, 0, 0, 0, 0⟩ it.timestamp) ⟨2024, 5, 1, 0, 0, 0, 0⟩) = true)) ∧
      processItems (fun _ => ⟨2024, 6, 1, 0, 0, 0, 0⟩) ⟨2024, 5, 15, 0, 0, 0, 0⟩
          ⟨2024, 5, 1, 0, 0, 0, 0⟩ 1
          [⟨"100", "b", "tB", "dB"⟩, ⟨"100", "c", "tC", "dC"⟩] (List.range' 1 1) []
        = .finished ([] ++ (List.range' 1 1).map fun i =>
            mkArticle 1 i (([(⟨"100", "b", "tB", "dB"⟩ : NewsItem),
                ⟨"100", "c", "tC", "dC"⟩][i - 1]?).getD blankItem)
              (resolveDate (fun _ => ⟨2024, 6, 1, 0, 0, 0, 0⟩) ⟨2024, 5, 15, 0, 0, 0, 0⟩
                (([(⟨"100", "b", "tB", "dB"⟩ : NewsItem),
                    ⟨"100", "c", "tC", "dC"⟩][i - 1]?).getD blankItem).timestamp)) :=
  ⟨by decide,
   c1_iteration_amended (fun _ => ⟨2024, 6, 1, 0, 0, 0, 0⟩) ⟨2024, 5, 15, 0, 0, 0, 0⟩
     ⟨2024, 5, 1, 0, 0, 0, 0⟩ 1 1
     [⟨"100", "b", "tB", "dB"⟩, ⟨"100", "c", "tC", "dC"⟩] [] (by decide)⟩

/-- C4: if, on the page currently displayed (with the next-page control
present), the items at the enumerated indices `1..j` are dated at or after
the cutoff and the item at index `j+1` (still within the enumerated range)
is strictly before it, the loop returns immediately: the result is exactly
the articles collected so far plus those of the first `j` items — the
offending item and everything after it are never processed. -/
theorem c4_cutoff_early_exit (fromMillis : Int → PyDateTime) (now : PyDateTime)
    (intercepted : Nat → Bool) (cutoff : PyDateTime) (n0 fuel clicks page : Nat)
    (st : BrowserState) (acc : List NewInformation) (j : Nat)
    (hvis : st.pos + 1 < st.pages.length)
    (hj : j + 1 ≤ n0)
    (hok : ∀ i ∈ List.range' 1 j, (((currentItems st)[i - 1]?).any fun it =>
        !PyDateTime.ltb (resolveDate fromMillis now it.timestamp) cutoff) = true)
    (hbad : (((currentItems st)[j]?).any fun it =>
        PyDateTime.ltb (resolveDate fromMillis now it.timestamp) cutoff) = true) :
    getNewsLoop fromMillis now intercepted cutoff n0 (fuel + 1) clicks page st acc
      = some (acc ++ (List.range' 1 j).map fun i =>
          mkArticle page i (((currentItems st)[i - 1]?).getD blankItem)
            (resolveDate fromMillis now
              (((currentItems st)[i - 1]?).getD blankItem).timestamp)) := by
  cases hbit : (currentItems st)[j]? with
  | none => rw [hbit] at hbad; simp [Option.any] at hbad
  | some itb =>
    rw [hbit] at hbad
    have hltb : PyDateTime.ltb (resolveDate fromMillis now itb.timestamp) cutoff = true := by
      simpa [Option.any] using hbad
    have hsplit : List.range' 1 n0
        = List.range' 1 j ++ (1 + j) :: List.range' (1 + j + 1) (n0 - j - 1) := by
      have hn : n0 - j - 1 + 1 = n0 - j := by omega
      rw [← List.range'_succ, hn, List.range'_append_1]
      congr 1
      omega
    have hfin := processItems_finished fromMillis now cutoff page (currentItems st)
      (List.range' 1 j) acc hok
    have happ := processItems_append fromMillis now cutoff page (currentItems st)
      (List.range' 1 j) ((1 + j) :: List.range' (1 + j + 1) (n0 - j - 1)) acc
    have hbadstep : processItems fromMillis now cutoff page (currentItems st)
        ((1 + j) :: List.range' (1 + j + 1) (n0 - j - 1))
        (acc ++ (List.range' 1 j).map fun i =>
          mkArticle page i (((currentItems st)[i - 1]?).getD blankItem)
            (resolveDate fromMillis now
              (((currentItems st)[i - 1]?).getD blankItem).timestamp))
        = .returned (acc ++ (List.range' 1 j).map fun i =>
            mkArticle page i (((currentItems st)[i - 1]?).getD blankItem)
              (resolveDate fromMillis now
                (((currentItems st)[i - 1]?).getD blankItem).timestamp)) := by
      have hidx : 1 + j - 1 = j := by omega
      simp only [processItems, hidx, hbit, hltb, if_true]
    simp only [getNewsLoop, hvis, if_true]
    rw [hsplit, happ, hfin]
    dsimp only
    rw [hbadstep]

/-- C4 witness: the spec's synthetic scenario — item dates 2024-04-10 and
2024-02-20 on the entry page, cutoff 2024-03-01 (months = 3 from now =
2024-05-15 00:00:00): exactly the first article is collected. -/
theorem c4_cutoff_early_exit_witness :
    ((⟨[[⟨"1712700000000", "a", "April story", "dA"⟩,
          ⟨"1708380000000", "b", "February story", "dB"⟩], []], 0⟩ : BrowserState).pos + 1
        < (⟨[[⟨"1712700000000", "a", "April story", "dA"⟩,
          ⟨"1708380000000", "b", "February story", "dB"⟩], []], 0⟩ : BrowserState).pages.length) ∧
      getNews
          (fun n => if n = 1712700000000 then ⟨2024, 4, 10, 8, 0, 0, 0⟩
            else ⟨2024, 2, 20, 8, 0, 0, 0⟩)
          ⟨2024, 5, 15, 0, 0, 0, 0⟩ (fun _ => false) 3 1
          ⟨[[⟨"1712700000000", "a", "April story", "dA"⟩,
             ⟨"1708380000000", "b", "February story", "dB"⟩], []], 0⟩
        = some [mkArticle 0 1 ⟨"1712700000000", "a", "April story", "dA"⟩
            ⟨2024, 4, 10, 8, 0, 0, 0⟩] := by
  refine ⟨by decide, ?_⟩
  have h := c4_cutoff_early_exit
    (fun n => if n = 1712700000000 then ⟨2024, 4, 10, 8, 0, 0, 0⟩ else ⟨2024, 2, 20, 8, 0, 0, 0⟩)
    ⟨2024, 5, 15, 0, 0, 0, 0⟩ (fun _ => false) (maxDateToSearch 3 ⟨2024, 5, 15, 0, 0, 0, 0⟩)
    2 0 0 0
    ⟨[[⟨"1712700000000", "a", "April story", "dA"⟩,
       ⟨"1708380000000", "b", "February story", "dB"⟩], []], 0⟩
    [] 1 (by decide) (by decide) (by decide) (by decide)
  exact h.trans (by decide)

/-- C6 counterexample: "$5" is a currency form in the claim's sense — the
spec-side reading of the pattern (optional dollar sign present, one digit,
no grouping, no suffix) matches it in full — yet `has_money` is false on a
title "$5", because the code's pattern demands a second digit group. -/
theorem c6_single_digit_counterexample :
    RegularExpression.rmatch specCurrencyRE "$5".data = true ∧
      (⟨"$5", ⟨2024, 1, 1, 0, 0, 0, 0⟩, "", "x.png"⟩ : NewInformation).has_money = false := by
  constructor <;> decide

/-- C6 (amended): `has_money` is true exactly when the title or the
description contains two adjacent digits or a digit-comma-digit block —
the mandatory core `\d{1,3},?\d{1,3}` of the pattern, at least two digits
in total; the dollar sign, the decimal part and the "dollars"/"USD" suffix
are all optional and impose nothing.  The spec's example forms
`$1,234.56`, `500 dollars` and `1000 USD` all contain such a core and are
detected; a text with no such core (in particular one with no digits at
all, or with a lone digit as in `$5`) yields false. -/
theorem c6_has_money_amended :
    (∀ n : NewInformation,
        n.has_money = true
          ↔ (hasCoreL n.title.data = true ∨ hasCoreL n.description.data = true)) ∧
      (⟨"$1,234.56", ⟨2024, 1, 1, 0, 0, 0, 0⟩, "", ""⟩ : NewInformation).has_money = true ∧
      (⟨"markets", ⟨2024, 1, 1, 0, 0, 0, 0⟩, "500 dollars", ""⟩ : NewInformation).has_money
        = true ∧
      (⟨"1000 USD", ⟨2024, 1, 1, 0, 0, 0, 0⟩, "", ""⟩ : NewInformation).has_money = true ∧
      (⟨"no money mentioned", ⟨2024, 1, 1, 0, 0, 0, 0⟩, "at all", ""⟩
          : NewInformation).has_money = false := by
  refine ⟨fun n => has_money_iff_core n, ?_, ?_, ?_, ?_⟩ <;> decide

/-- C9 counterexample: "$1,2" contains at most one digit in a row (its
digit runs are "1" and "2", separated by the comma), so the claim says
`has_money` is false on it — but the pattern's optional comma between the
two digit groups makes the code return true. -/
theorem c9_comma_counterexample :
    twoConsecDigits "$1,2".data = false ∧
      (⟨"$1,2", ⟨2024, 1, 1, 0, 0, 0, 0⟩, "", ""⟩ : NewInformation).has_money = true := by
  constructor <;> decide

/-- C9 (amended): two adjacent decimal digits in the title or in the
description each make `has_money` true (a bare year such as "2024"
included), and more generally any core occurrence — two adjacent digits
or a digit-comma-digit block such as "$1,2", although no two of its
digits are adjacent — in either field makes it true; conversely
`has_money` is false exactly on articles whose title and description both
contain no such block — even when a dollar sign or the word "dollars" is
present. -/
theorem c9_digit_pair_amended (n : NewInformation) :
    (twoConsecDigits n.title.data = true → n.has_money = true) ∧
      (twoConsecDigits n.description.data = true → n.has_money = true) ∧
      (hasCoreL n.title.data = true → n.has_money = true) ∧
      (hasCoreL n.description.data = true → n.has_money = true) ∧
      (hasCoreL n.title.data = false → hasCoreL n.description.data = false →
        n.has_money = false) := by
  refine ⟨?_, ?_, ?_, ?_, ?_⟩
  · intro h
    exact (has_money_iff_core n).mpr (Or.inl (twoConsec_core _ h))
  · intro h
    exact (has_money_iff_core n).mpr (Or.inr (twoConsec_core _ h))
  · intro h
    exact (has_money_iff_core n).mpr (Or.inl h)
  · intro h
    exact (has_money_iff_core n).mpr (Or.inr h)
  · intro h1 h2
    rw [Bool.eq_false_iff]
    intro htrue
    rcases (has_money_iff_core n).mp htrue with h | h
    · rw [h1] at h
      exact Bool.false_ne_true h
    · rw [h2] at h
      exact Bool.false_ne_true h

/-- C9 amended witness: a bare year in the title or in the description is
flagged as money, and so is a digit-comma-digit block in either field; a
dollar sign with a lone digit and the word "dollars" with no digits are
not. -/
theorem c9_digit_pair_amended_witness :
    (twoConsecDigits "year 2024".data = true ∧
        (⟨"year 2024", ⟨2024, 1, 1, 0, 0, 0, 0⟩, "", ""⟩ : NewInformation).has_money = true) ∧
      (twoConsecDigits "built in 1999".data = true ∧
        (⟨"plans", ⟨2024, 1, 1, 0, 0, 0, 0⟩, "built in 1999", ""⟩
            : NewInformation).has_money = true) ∧
      (hasCoreL "$1,2".data = true ∧
        (⟨"$1,2", ⟨2024, 1, 1, 0, 0, 0, 0⟩, "cheap", ""⟩ : NewInformation).has_money = true) ∧
      (hasCoreL "just $9,9".data = true ∧
        (⟨"offer", ⟨2024, 1, 1, 0, 0, 0, 0⟩, "just $9,9", ""⟩
            : NewInformation).has_money = true) ∧
      (hasCoreL "pay $ 5 x".data = false ∧ hasCoreL "one dollars".data = false ∧
        (⟨"pay $ 5 x", ⟨2024, 1, 1, 0, 0, 0, 0⟩, "one dollars", ""⟩
            : NewInformation).has_money = false) :=
  ⟨⟨by decide,
    (c9_digit_pair_amended ⟨"year 2024", ⟨2024, 1, 1, 0, 0, 0, 0⟩, "", ""⟩).1 (by decide)⟩,
   ⟨by decide,
    (c9_digit_pair_amended ⟨"plans", ⟨2024, 1, 1, 0, 0, 0, 0⟩, "built in 1999", ""⟩).2.1
      (by decide)⟩,
   ⟨by decide,
    (c9_digit_pair_amended ⟨"$1,2", ⟨2024, 1, 1, 0, 0, 0, 0⟩, "cheap", ""⟩).2.2.1
      (by decide)⟩,
   ⟨by decide,
    (c9_digit_pair_amended ⟨"offer", ⟨2024, 1, 1, 0, 0, 0, 0⟩, "just $9,9", ""⟩).2.2.2.1
      (by decide)⟩,
   ⟨by decide, by decide,
    (c9_digit_pair_amended ⟨"pay $ 5 x", ⟨2024, 1, 1, 0, 0, 0, 0⟩, "one dollars", ""⟩).2.2.2.2
      (by decide) (by decide)⟩⟩

end FreshNews
